import Mathlib

/-!
# Verification of the record/sublist field-binding core

A shallow embedding of the record wrapper (`NSTypedRecord`), the sublist
wrapper (`NSSubList` / `NSSubListLine`), and the descriptor factories
(`Record.ts` / `Sublist.ts`) of the field-mapping layer, together with
theorems about the properties claimed in the specification.

The external ERP record API (create / load / save / get / set / line
selection) is modelled as an opaque synchronous capability: each embedded
operation returns, besides its result and the successor state, the list of
external calls it issued, in order.  JavaScript values are modelled with
numbers restricted to integers plus NaN (the ERP internal ids the layer
manipulates are integers); JavaScript strings are Lean strings.
-/

namespace NSCore

/-- JavaScript number model: an integer value or NaN.  Sufficient for this
layer, which only handles integral internal ids and flag-like numbers. -/
inductive JSNum
  | nan
  | val (i : Int)
deriving DecidableEq, Repr

/-- JS truthiness of a number: `0` and `NaN` are falsy. -/
def JSNum.truthy : JSNum → Bool
  | .nan => false
  | .val i => i != 0

/-- A NetSuite `FieldValue`: null, number, string or boolean (dates and
arrays are not needed by any claim). -/
inductive FieldVal
  | null
  | num (n : JSNum)
  | str (s : String)
  | boolVal (b : Bool)
deriving DecidableEq, Repr

/-- JS whitespace for string trimming (the common whitespace characters). -/
def jsWhitespace (c : Char) : Bool :=
  c = ' ' || c = '\t' || c = '\n' || c = '\r'

/-- Trim on character lists, modelling JS string trimming. -/
def jsTrim (l : List Char) : List Char :=
  ((l.dropWhile jsWhitespace).reverse.dropWhile jsWhitespace).reverse

/-- Strip one optional leading sign. -/
def stripSign : List Char → List Char
  | '+' :: rest => rest
  | '-' :: rest => rest
  | l => l

/-- Is `cs` an unsigned decimal literal body: `digits`, `digits.digits`,
`.digits` or `digits.` with at least one digit overall. -/
def decimalLit (cs : List Char) : Bool :=
  match cs.span Char.isDigit with
  | (ds, []) => ds != []
  | (ds, '.' :: fs) => fs.all Char.isDigit && (ds != [] || fs != [])
  | _ => false

/-- Models `Boolean(+s)` for a JS string `s`: true exactly when `s` is a
decimal numeric literal with nonzero value.  (Restricted to optionally
signed decimal literals; exotic forms such as hex or exponent literals,
which never occur as ERP internal ids, are treated as NaN, i.e. falsy.) -/
def jsPlusTruthy (s : String) : Bool :=
  let cs := stripSign (jsTrim s.data)
  decimalLit cs && cs.any (fun c => c.isDigit && c != '0')

/-- Fold decimal digits to a natural number. -/
def digitsToNat (cs : List Char) : Nat :=
  cs.foldl (fun a c => a * 10 + (c.toNat - 48)) 0

/-- Models JS `Number(s)` restricted to optionally signed decimal *integer*
literals; the empty (trimmed) string converts to `0`, anything else to NaN. -/
def jsStringToNum (s : String) : JSNum :=
  let t := jsTrim s.data
  if t = [] then .val 0
  else
    let body := stripSign t
    if body != [] && body.all Char.isDigit then
      let n : Int := (digitsToNat body : Int)
      .val (if t.head? = some '-' then -n else n)
    else .nan

/-- Models JS `Number(value)` on a field value (string case as in
`jsStringToNum`). -/
def jsNumber : FieldVal → JSNum
  | .null => .val 0
  | .num n => n
  | .str s => jsStringToNum s
  | .boolVal b => .val (if b then 1 else 0)

/-! ## The external record handle

`NSRecord` models the externally owned record object adopted by the
wrapper: its `id` (null until persisted), its `type`, its dynamic-mode
flag, whether it exposes a `save` method (`record.Record` does, a
`ClientCurrentRecord` does not), the value/text field stores consulted by
the external get/set calls, and the id its `save` call returns. -/

/-- Default-values map passed through to the external create/load calls. -/
def DefaultsMap := List (String × FieldVal)
deriving DecidableEq, Repr

/-- The externally owned record object (opaque handle shape). -/
structure NSRecord where
  recId : Option Int
  rtype : String
  isDynamic : Bool
  savable : Bool
  values : List (String × FieldVal)
  texts : List (String × String)
  savedId : Int
deriving DecidableEq, Repr

/-- Assoc-list lookup for the external field stores. -/
def lookupAssoc {α : Type} (l : List (String × α)) (k : String) : Option α :=
  (l.find? (fun p => p.1 = k)).map (·.2)

/-- Assoc-list update for the external field stores. -/
def setAssoc {α : Type} (l : List (String × α)) (k : String) (v : α) :
    List (String × α) :=
  (k, v) :: l.filter (fun p => p.1 != k)

/-- External `getValue` on the handle. -/
def NSRecord.getValueExt (r : NSRecord) (fieldId : String) : Option FieldVal :=
  lookupAssoc r.values fieldId

/-- External `getText` on the handle. -/
def NSRecord.getTextExt (r : NSRecord) (fieldId : String) : Option String :=
  lookupAssoc r.texts fieldId

/-- External `setValue` on the handle. -/
def NSRecord.setValueExt (r : NSRecord) (fieldId : String) (v : FieldVal) :
    NSRecord :=
  { r with values := setAssoc r.values fieldId v }

/-- External `setText` on the handle. -/
def NSRecord.setTextExt (r : NSRecord) (fieldId : String) (v : String) :
    NSRecord :=
  { r with texts := setAssoc r.texts fieldId v }

/-- The argument actually passed for the id in the external `load` call
(the constructor forwards it with its original JS type). -/
inductive IdArg
  | numId (n : JSNum)
  | strId (s : String)
deriving DecidableEq, Repr

/-- One external record-API call, as observed at the boundary. -/
inductive RecCall
  | createCall (rtype : String) (isDynamic : Option Bool)
      (defaultValues : Option DefaultsMap)
  | loadCall (rtype : String) (recId : IdArg) (isDynamic : Bool)
      (defaultValues : Option DefaultsMap)
  | getValueCall (fieldId : String)
  | getTextCall (fieldId : String)
  | setValueCall (fieldId : String) (v : FieldVal)
  | setTextCall (fieldId : String) (text : FieldVal)
  | saveCall (enableSourcing ignoreMandatoryFields : Option Bool)
deriving DecidableEq, Repr

/-- The errors this layer throws (the source throws `Error` with a message;
we carry the interpolated data instead of the message text). -/
inductive NSError
  | invalidArgument (renderedArg : String)
  | readOnlyField (fieldId : String)
  | notSavable
  | indexOutOfRange (insertAt length : Nat)
  | invalidModeOperation
deriving DecidableEq, Repr

/-- The constructor argument `rec?`, covering the declared overloads:
absent (`undefined`), `null`, a number, a string, or an already obtained
external record object. -/
inductive CtorArg
  | undefinedArg
  | nullArg
  | numArg (n : JSNum)
  | strArg (s : String)
  | recArg (r : NSRecord)
deriving DecidableEq, Repr

/-- JS falsiness of the constructor argument (`!rec`): `undefined`, `null`,
`0`, `NaN` and the empty string are falsy. -/
def CtorArg.falsy : CtorArg → Bool
  | .undefinedArg => true
  | .nullArg => true
  | .numArg n => !n.truthy
  | .strArg s => s == ""
  | .recArg _ => false

/-- String rendering of the offending constructor argument, standing in for
its interpolation into the thrown error message. -/
def CtorArg.rendered : CtorArg → String
  | .undefinedArg => "undefined"
  | .nullArg => "null"
  | .numArg _ => "number"
  | .strArg s => s
  | .recArg _ => "object"

/-- What the external API hands back to this instance: the records returned
by `record.create` and `record.load`. -/
structure RecEnv where
  created : NSRecord
  loaded : NSRecord
deriving DecidableEq, Repr

/-- Wrapper instance state: the adopted external record (`_nsRecord`,
assigned exactly once in the constructor) and the local internal id
(`_id`, `none` until captured or saved). -/
structure NSTypedRecord where
  _nsRecord : NSRecord
  _id : Option Int
deriving DecidableEq, Repr

/-- `NSTypedRecord`'s constructor (`NSTypedRecord.ts`): dispatches on the
runtime shape of `rec`:
* falsy (`!rec`) — issue `record.create` with the subtype's record type,
  passing `isDynamic` and `defaultValues` through;
* an object — adopt it without any external call, capturing its non-null id;
* a number, or any remaining truthy value whose numeric coercion (`+rec`)
  is truthy — issue `record.load` keyed by the argument with its original
  type and `isDynamic ?? false`, capturing the loaded record's non-null id;
* anything else — throw the invalid-argument error naming the value. -/
def NSTypedRecord.construct (env : RecEnv) (recordType : String)
    (rec : CtorArg) (isDynamic : Option Bool)
    (defaultValues : Option DefaultsMap) :
    Except NSError (NSTypedRecord × List RecCall) :=
  if rec.falsy then
    .ok ({ _nsRecord := env.created, _id := none },
         [.createCall recordType isDynamic defaultValues])
  else
    match rec with
    | .recArg r =>
        -- `if (rec.id !== null) this._id = rec.id` leaves `_id` unset on a
        -- null id, which coincides with copying the optional id over.
        .ok ({ _nsRecord := r, _id := r.recId }, [])
    | .numArg n =>
        .ok ({ _nsRecord := env.loaded, _id := env.loaded.recId },
             [.loadCall recordType (.numId n) (isDynamic.getD false)
                defaultValues])
    | .strArg s =>
        if jsPlusTruthy s then
          .ok ({ _nsRecord := env.loaded, _id := env.loaded.recId },
               [.loadCall recordType (.strId s) (isDynamic.getD false)
                  defaultValues])
        else .error (.invalidArgument (CtorArg.strArg s).rendered)
    | .undefinedArg => .error (.invalidArgument "undefined")
    | .nullArg => .error (.invalidArgument "null")

/-- Models JS `toLowerCase` (character-wise lowering; ASCII is all the
reserved-name check needs). -/
def jsToLowerCase (s : String) : String :=
  String.mk (s.data.map Char.toLower)

/-- `getValue` (`NSTypedRecord.ts`): the reserved names `id` and `type`
(case-insensitively) are answered from the adopted handle's own `id`/`type`
properties without any external call; other names issue the external
`getValue`.  Returns the value (or null) and the calls issued. -/
def NSTypedRecord.getValue (tr : NSTypedRecord) (fieldId : String) :
    Option FieldVal × List RecCall :=
  if jsToLowerCase fieldId = "id" then
    (tr._nsRecord.recId.map (fun i => FieldVal.num (.val i)), [])
  else if jsToLowerCase fieldId = "type" then
    (some (.str tr._nsRecord.rtype), [])
  else
    (tr._nsRecord.getValueExt fieldId, [.getValueCall fieldId])

/-- `getText` (`NSTypedRecord.ts`): like `getValue` but through the text
store; `id` renders the local id, `type` the local type string. -/
def NSTypedRecord.getText (tr : NSTypedRecord) (fieldId : String) :
    Option String × List RecCall :=
  if jsToLowerCase fieldId = "id" then
    (tr._nsRecord.recId.map toString, [])
  else if jsToLowerCase fieldId = "type" then
    (some tr._nsRecord.rtype, [])
  else
    (tr._nsRecord.getTextExt fieldId, [.getTextCall fieldId])

/-- `setValue` (`NSTypedRecord.ts`): the reserved names `id` and `type` are
rejected with the read-only-field error before any external call; other
names issue the external `setValue`.  Returns the thrown error or unit,
the successor instance state, and the calls issued. -/
def NSTypedRecord.setValue (tr : NSTypedRecord) (fieldId : String)
    (value : FieldVal) :
    Except NSError Unit × NSTypedRecord × List RecCall :=
  if jsToLowerCase fieldId = "id" || jsToLowerCase fieldId = "type" then
    (.error (.readOnlyField fieldId), tr, [])
  else
    (.ok (), { tr with _nsRecord := tr._nsRecord.setValueExt fieldId value },
     [.setValueCall fieldId value])

/-- `setText` (`NSTypedRecord.ts`): same gate as `setValue`, through the
text store. -/
def NSTypedRecord.setText (tr : NSTypedRecord) (fieldId : String)
    (value : String) :
    Except NSError Unit × NSTypedRecord × List RecCall :=
  if jsToLowerCase fieldId = "id" || jsToLowerCase fieldId = "type" then
    (.error (.readOnlyField fieldId), tr, [])
  else
    (.ok (), { tr with _nsRecord := tr._nsRecord.setTextExt fieldId value },
     [.setTextCall fieldId (.str value)])

/-- `save` (`NSTypedRecord.ts`): throws the not-savable error when the
adopted handle has no `save` method; otherwise issues the external save
once, stores the returned id in `_id` and returns it. -/
def NSTypedRecord.save (tr : NSTypedRecord)
    (enableSourcing ignoreMandatoryFields : Option Bool) :
    Except NSError Int × NSTypedRecord × List RecCall :=
  if !tr._nsRecord.savable then
    (.error .notSavable, tr, [])
  else
    (.ok tr._nsRecord.savedId,
     { tr with _id := some tr._nsRecord.savedId },
     [.saveCall enableSourcing ignoreMandatoryFields])

/-! ## The sublist world

`SubRec` models the external record as seen by the sublist layer, bound to
one sublist: its dynamic-mode flag, the committed line count answered by
`getLineCount`, and whether an uncommitted new line is currently selected
(`selectNewLine` opens one; `commitLine` commits it, which is when — and
only when — the committed count grows, mirroring the platform behavior the
source comments describe). -/

structure SubRec where
  isDynamic : Bool
  lineCount : Nat
  pendingNew : Bool
deriving DecidableEq, Repr

/-- External `insertLine`: one more committed line. -/
def SubRec.extInsertLine (r : SubRec) (_line : Nat) : SubRec :=
  { r with lineCount := r.lineCount + 1 }

/-- External `removeLine`: one fewer committed line (for an in-range
index; the layer under verification only ever removes in range). -/
def SubRec.extRemoveLine (r : SubRec) (line : Nat) : SubRec :=
  if line < r.lineCount then { r with lineCount := r.lineCount - 1 } else r

/-- External `selectNewLine`: opens an uncommitted line; the committed
count is unchanged until it is committed. -/
def SubRec.extSelectNewLine (r : SubRec) : SubRec :=
  { r with pendingNew := true }

/-- External `commitLine`: commits the selected line; a pending new line
becomes a committed one. -/
def SubRec.extCommitLine (r : SubRec) : SubRec :=
  if r.pendingNew then
    { r with lineCount := r.lineCount + 1, pendingNew := false }
  else r

/-- One external sublist-API call, as observed at the boundary.  Calls
whose names start with `current` are the dynamic-mode ("current line")
variants; `selectLine`, `selectNewLine` and `commitLine` are likewise only
meaningful on a dynamic record. -/
inductive SubCall
  | insertLineCall (sublistId : String) (line : Nat) (ignoreRecalc : Bool)
  | removeLineCall (sublistId : String) (line : Nat) (ignoreRecalc : Bool)
  | selectLineCall (sublistId : String) (line : Nat)
  | selectNewLineCall (sublistId : String)
  | commitLineCall (sublistId : String)
  | getSublistValueCall (sublistId fieldId : String) (line : Nat)
  | getSublistTextCall (sublistId fieldId : String) (line : Nat)
  | currentSublistValueCall (sublistId fieldId : String)
  | currentSublistTextCall (sublistId fieldId : String)
  | setSublistValueCall (sublistId fieldId : String) (line : Nat)
      (v : FieldVal)
  | setSublistTextCall (sublistId fieldId : String) (line : Nat)
      (v : FieldVal)
  | setCurrentSublistValueCall (sublistId fieldId : String)
      (ignoreFieldChange forceSyncSourcing : Bool) (v : FieldVal)
  | setCurrentSublistTextCall (sublistId fieldId : String)
      (ignoreFieldChange forceSyncSourcing : Bool) (v : FieldVal)
  | getSublistSubrecordCall (sublistId fieldId : String) (line : Nat)
  | currentSublistSubrecordCall (sublistId fieldId : String)
deriving DecidableEq, Repr

/-- Is this call one of the dynamic-style ("current line") externals? -/
def SubCall.isDynStyle : SubCall → Bool
  | .selectLineCall _ _ => true
  | .selectNewLineCall _ => true
  | .commitLineCall _ => true
  | .currentSublistValueCall _ _ => true
  | .currentSublistTextCall _ _ => true
  | .setCurrentSublistValueCall _ _ _ _ _ => true
  | .setCurrentSublistTextCall _ _ _ _ _ => true
  | .currentSublistSubrecordCall _ _ => true
  | _ => false

/-- Is this call one of the standard-mode (explicit line index) accessors? -/
def SubCall.isStdStyle : SubCall → Bool
  | .getSublistValueCall _ _ _ => true
  | .getSublistTextCall _ _ _ => true
  | .setSublistValueCall _ _ _ _ => true
  | .setSublistTextCall _ _ _ _ => true
  | .getSublistSubrecordCall _ _ _ => true
  | .insertLineCall _ _ _ => true
  | .removeLineCall _ _ _ => true
  | _ => false

/-- One sublist line entity (`NSSubListLine.ts`): sublist id, line index
and the behavioral flags.  (The shared `_nsRecord` reference is threaded
explicitly through the operations of this embedding.) -/
structure NSSubListLine where
  _subListId : String
  _line : Nat
  ignoreFieldChange : Bool
  forceSyncSourcing : Bool
  useDynamicModeAPI : Bool
deriving DecidableEq, Repr

/-- `new NSSubListLine(subListId, rec, line)`: flags default to `false`,
`useDynamicModeAPI` defaults to the record's dynamic flag. -/
def mkSubListLine (subListId : String) (rec : SubRec) (line : Nat) :
    NSSubListLine :=
  { _subListId := subListId, _line := line, ignoreFieldChange := false,
    forceSyncSourcing := false, useDynamicModeAPI := rec.isDynamic }

/-- Sublist container state (`NSSubList.ts`): the bound sublist id, the
container-level dynamic-API flag, the `entries` array, the enumerable
numeric index properties `0 .. k-1` (`indexProps`), and the non-enumerable
phantom line installed at index `k` in dynamic mode (`phantom`). -/
structure NSSubList where
  _subListId : String
  _useDynamicModeAPI : Bool
  entries : List NSSubListLine
  indexProps : List NSSubListLine
  phantom : Option NSSubListLine
deriving DecidableEq, Repr

/-- Numeric index access `this[i]`: the enumerable index properties first,
then the phantom slot just past them, else `undefined`. -/
def NSSubList.getIndex (s : NSSubList) (i : Nat) : Option NSSubListLine :=
  if h : i < s.indexProps.length then some (s.indexProps.get ⟨i, h⟩)
  else if i = s.indexProps.length then s.phantom
  else none

/-- `rebuildArray` (`NSSubList.ts`): deletes every numeric own property,
then installs, for each committed line `i`, a fresh line entity carrying
the container's current mode flag, both at index `i` and in `entries`;
when the record is dynamic it additionally installs one non-enumerable
phantom entity at index `length` (whose mode flag keeps the constructor
default and which never shows up in enumeration). -/
def NSSubList.rebuildArray (rec : SubRec) (s : NSSubList) : NSSubList :=
  let mk := fun i =>
    { mkSubListLine s._subListId rec i with
        useDynamicModeAPI := s._useDynamicModeAPI }
  { s with
      entries := (List.range rec.lineCount).map mk,
      indexProps := (List.range rec.lineCount).map mk,
      phantom :=
        if rec.isDynamic then
          some (mkSubListLine s._subListId rec rec.lineCount)
        else none }

/-- `new NSSubList(ctor, nsRec, subListId)`: binds the sublist, defaults
the container flag to the record's dynamic flag, and rebuilds. -/
def NSSubList.make (rec : SubRec) (subListId : String) : NSSubList :=
  NSSubList.rebuildArray rec
    { _subListId := subListId, _useDynamicModeAPI := rec.isDynamic,
      entries := [], indexProps := [], phantom := none }

/-- `useDynamicModeAPI` setter: stores the flag and rebuilds so it gets
applied to every line. -/
def NSSubList.setUseDynamicModeAPI (rec : SubRec) (s : NSSubList)
    (value : Bool) : NSSubList :=
  NSSubList.rebuildArray rec { s with _useDynamicModeAPI := value }

/-- `addLine(ignoreRecalc = true, insertAt = this.length)`
(`NSSubList.ts`): throws past-the-end, otherwise issues `selectNewLine`
(container flag and record both dynamic; no rebuild) or `insertLine` plus
a rebuild, and reads back `this[this.length]` resp. `this[insertAt]`. -/
def NSSubList.addLine (rec : SubRec) (s : NSSubList)
    (ignoreRecalc : Bool := true) (insertAtArg : Option Nat := none) :
    Except NSError (Option NSSubListLine) × SubRec × NSSubList ×
      List SubCall :=
  let insertAt := insertAtArg.getD rec.lineCount
  if insertAt > rec.lineCount then
    (.error (.indexOutOfRange insertAt rec.lineCount), rec, s, [])
  else if s._useDynamicModeAPI && rec.isDynamic then
    let rec' := rec.extSelectNewLine
    (.ok (s.getIndex rec'.lineCount), rec', s,
     [.selectNewLineCall s._subListId])
  else
    let rec' := rec.extInsertLine insertAt
    let s' := NSSubList.rebuildArray rec' s
    (.ok (s'.getIndex insertAt), rec', s',
     [.insertLineCall s._subListId insertAt ignoreRecalc])

/-- `removeLine(line, ignoreRecalc = false)`: issues the external remove,
then rebuilds. -/
def NSSubList.removeLine (rec : SubRec) (s : NSSubList) (line : Nat)
    (ignoreRecalc : Bool := false) : SubRec × NSSubList × List SubCall :=
  let rec' := rec.extRemoveLine line
  (rec', NSSubList.rebuildArray rec' s,
   [.removeLineCall s._subListId line ignoreRecalc])

/-- The `while (this.length > 0)` loop of `removeAllLines`: removes the
then-current last line (`length - 1`) until none remain. -/
def NSSubList.removeAllLinesGo (rec : SubRec) (s : NSSubList)
    (ignoreRecalc : Bool) : SubRec × NSSubList × List SubCall :=
  if _h : 0 < rec.lineCount then
    let step := NSSubList.removeLine rec s (rec.lineCount - 1) ignoreRecalc
    let next := NSSubList.removeAllLinesGo step.1 step.2.1 ignoreRecalc
    (next.1, next.2.1, step.2.2 ++ next.2.2)
  else (rec, s, [])
termination_by rec.lineCount
decreasing_by
  simp only [NSSubList.removeLine, SubRec.extRemoveLine]
  split
  · simp only []
    omega
  · omega

/-- `removeAllLines(ignoreRecalc = true)`: the removal loop followed by
one final rebuild. -/
def NSSubList.removeAllLines (rec : SubRec) (s : NSSubList)
    (ignoreRecalc : Bool := true) : SubRec × NSSubList × List SubCall :=
  let go := NSSubList.removeAllLinesGo rec s ignoreRecalc
  (go.1, NSSubList.rebuildArray go.1 go.2.1, go.2.2)

/-- `commitLine()`: throws on a standard-mode record before any external
call; otherwise issues the external commit and rebuilds. -/
def NSSubList.commitLine (rec : SubRec) (s : NSSubList) :
    Except NSError Unit × SubRec × NSSubList × List SubCall :=
  if !rec.isDynamic then
    (.error .invalidModeOperation, rec, s, [])
  else
    let rec' := rec.extCommitLine
    (.ok (), rec', NSSubList.rebuildArray rec' s,
     [.commitLineCall s._subListId])

/-- `selectLine(line)`: delegates directly, no local bounds check. -/
def NSSubList.selectLine (s : NSSubList) (line : Nat) : List SubCall :=
  [.selectLineCall s._subListId line]

/-- Module-level `getSublistValue` (`NSSubList.ts`): with the line flag
*and* the record flag dynamic, selects the line then reads the current
sublist value/text; otherwise reads at the explicit line index.  Returns
the calls issued, in order. -/
def getSublistValue (rec : SubRec) (line : NSSubListLine)
    (fieldId : String) (isText : Bool) : List SubCall :=
  if line.useDynamicModeAPI && rec.isDynamic then
    [.selectLineCall line._subListId line._line,
     if isText then .currentSublistTextCall line._subListId fieldId
     else .currentSublistValueCall line._subListId fieldId]
  else
    [if isText then .getSublistTextCall line._subListId fieldId line._line
     else .getSublistValueCall line._subListId fieldId line._line]

/-- Module-level `setSublistValue` (`NSSubList.ts`): mirrors the read
branching; the dynamic-mode writes additionally pass the line's
`ignoreFieldChange` and `forceSyncSourcing` flags through. -/
def setSublistValue (rec : SubRec) (line : NSSubListLine)
    (fieldId : String) (value : FieldVal) (isText : Bool) : List SubCall :=
  if line.useDynamicModeAPI && rec.isDynamic then
    [.selectLineCall line._subListId line._line,
     if isText then
       .setCurrentSublistTextCall line._subListId fieldId
         line.ignoreFieldChange line.forceSyncSourcing value
     else
       .setCurrentSublistValueCall line._subListId fieldId
         line.ignoreFieldChange line.forceSyncSourcing value]
  else
    [if isText then
       .setSublistTextCall line._subListId fieldId line._line value
     else
       .setSublistValueCall line._subListId fieldId line._line value]

/-- `NSSubListLine.getSubRecord` (`NSSubListLine.ts`): branches on the
line's `useDynamicModeAPI` flag *alone* — dynamic style selects the line
and fetches the current sublist subrecord, standard style fetches at the
explicit index. -/
def NSSubListLine.getSubRecord (line : NSSubListLine) (fieldId : String) :
    List SubCall :=
  if line.useDynamicModeAPI then
    [.selectLineCall line._subListId line._line,
     .currentSublistSubrecordCall line._subListId fieldId]
  else
    [.getSublistSubrecordCall line._subListId fieldId line._line]

/-! ## Property-name parsing (descriptor factories)

Two variants live in the repository.  `Record.ts` builds its parser with
`suffixParser`, which tests `propertyKey.slice(-suffixLength)` and strips
with `propertyKey.slice(0, -suffixLength)` — i.e. removes the *trailing*
suffix.  The sublist-line variant (`Sublist.ts` and the standalone sublist
descriptor module) tests `endsWith('Text')` but strips with
`propertyKey.replace('Text', '')`, which removes the *first* occurrence of
`'Text'`. -/

/-- JS `s.slice(-n)`: the last `n` characters (the whole string when it is
shorter, matching the clamping of a negative start index). -/
def jsSliceLast (s : String) (n : Nat) : String :=
  String.mk (s.data.drop (s.data.length - n))

/-- JS `s.slice(0, -n)` for `n > 0`: everything but the last `n`
characters (empty when the string is shorter). -/
def jsSliceDropLast (s : String) (n : Nat) : String :=
  String.mk (s.data.take (s.data.length - n))

/-- `suffixParser` (`Record.ts`): flag whether `propertyKey` ends with the
suffix, and the key with the trailing suffix sliced off when it does. -/
def suffixParser (suffixToSearch : String) (propertyKey : String) :
    Bool × String :=
  let suffixLength := suffixToSearch.data.length
  let endsWithSuffix := jsSliceLast propertyKey suffixLength = suffixToSearch
  (endsWithSuffix,
   if endsWithSuffix then jsSliceDropLast propertyKey suffixLength
   else propertyKey)

namespace RecordTs

/-- `parseProp` (`Record.ts`): the `'Text'` instance of `suffixParser`. -/
def parseProp (propertyKey : String) : Bool × String :=
  suffixParser "Text" propertyKey

/-- `parseSublistProp` (`Record.ts`): the `'Sublist'` instance. -/
def parseSublistProp (propertyKey : String) : Bool × String :=
  suffixParser "Sublist" propertyKey

end RecordTs

/-- The characters of the recognized `'Text'` suffix. -/
def textChars : List Char := ['T', 'e', 'x', 't']

/-- Does `l` start with the four characters `Text`? -/
def startsWithText (l : List Char) : Bool := l.take 4 = textChars

/-- JS `s.replace('Text', '')` on the character list: drops the first
occurrence of `Text`, leaves the list unchanged when there is none. -/
def replaceFirstTextAux : List Char → List Char
  | [] => []
  | c :: rest =>
      if startsWithText (c :: rest) then rest.drop 3
      else c :: replaceFirstTextAux rest

/-- Does `Text` occur anywhere in `l`? -/
def hasTextOcc : List Char → Bool
  | [] => false
  | c :: rest => startsWithText (c :: rest) || hasTextOcc rest

namespace SublistTs

/-- `parseProp` (`Sublist.ts` / the sublist-line descriptor module): the
flag is `endsWith('Text')`, but the stripped name is
`propertyKey.replace('Text', '')` — the *first* occurrence removed. -/
def parseProp (propertyKey : String) : Bool × String :=
  let endsWithText := jsSliceLast propertyKey 4 = "Text"
  (endsWithText,
   if endsWithText then String.mk (replaceFirstTextAux propertyKey.data)
   else propertyKey)

end SublistTs

/-! ## Sublist-bound property getters

`sublistDescriptor` (`Record.ts`) caches the container it constructs in a
non-enumerable backing property `_<sublistId>` of the owning instance, so
every later read returns the same object.  `SubListDecorator`
(`NSTypedRecord.ts`) constructs a fresh `NSSubList` on every read — its
caching `Object.defineProperty` line is commented out in the source.

Object identity is modelled with an allocation counter: every `new
NSSubList(...)` evaluation draws the next allocation id, and two container
references are identity-equal exactly when their allocation ids agree. -/

/-- Allocator state for `new NSSubList(...)` evaluations. -/
structure SubListAlloc where
  nextId : Nat
deriving DecidableEq, Repr

/-- Per-owning-instance state: the non-enumerable backing property holding
the cached container (allocation id and value), absent until first read. -/
structure RecInstance where
  cachedSubList : Option (Nat × NSSubList)
deriving DecidableEq, Repr

/-- `sublistDescriptor` getter (`Record.ts`): on a cache miss, construct
the container for the resolved sublist id, store it in the non-enumerable
backing property and return it; on a hit, return the stored container. -/
def sublistDescriptorGet (rec : SubRec) (propertyKey : String)
    (inst : RecInstance) (a : SubListAlloc) :
    (Nat × NSSubList) × RecInstance × SubListAlloc :=
  match inst.cachedSubList with
  | some c => (c, inst, a)
  | none =>
      let c := (a.nextId,
                NSSubList.make rec (RecordTs.parseSublistProp propertyKey).2)
      (c, { cachedSubList := some c }, { nextId := a.nextId + 1 })

/-- `SubListDecorator` getter (`NSTypedRecord.ts`): always evaluates
`new NSSubList(ctor, this._nsRecord, propertyName)` — a fresh container on
every read, nothing written back to the instance. -/
def subListDecoratorGet (rec : SubRec) (propertyName : String)
    (inst : RecInstance) (a : SubListAlloc) :
    (Nat × NSSubList) × RecInstance × SubListAlloc :=
  ((a.nextId, NSSubList.make rec propertyName), inst,
   { nextId := a.nextId + 1 })

/-! ## Default and numeric field bindings (`Record.ts`) -/

/-- A JS value being assigned to a bound property: `undefined` or a field
value (which includes `null`). -/
inductive JSSetVal
  | undef
  | val (v : FieldVal)
deriving DecidableEq, Repr

/-- String rendering of a field value, standing in for the JS string the
external text store ends up holding when a raw value is passed as text. -/
def FieldVal.render : FieldVal → String
  | .null => "null"
  | .num .nan => "NaN"
  | .num (.val i) => toString i
  | .str s => s
  | .boolVal b => toString b

/-- `defaultDescriptor` setter (`Record.ts`): ignores `undefined`
assignments entirely; any other value (including `null`) is forwarded to
the external `setText`/`setValue` according to the parsed `'Text'`
suffix. -/
def defaultDescriptorSet (propertyKey : String) (r : NSRecord)
    (value : JSSetVal) : NSRecord × List RecCall :=
  let p := RecordTs.parseProp propertyKey
  match value with
  | .undef => (r, [])
  | .val v =>
      if p.1 then
        (r.setTextExt p.2 v.render, [.setTextCall p.2 v])
      else
        (r.setValueExt p.2 v, [.setValueCall p.2 v])

/-- `numericDescriptor` setter (`Record.ts`): like the default setter, but
a value destined for a non-text field goes through `Number(value)` first;
text writes are never coerced. -/
def numericDescriptorSet (propertyKey : String) (r : NSRecord)
    (value : JSSetVal) : NSRecord × List RecCall :=
  let p := RecordTs.parseProp propertyKey
  match value with
  | .undef => (r, [])
  | .val v =>
      if p.1 then
        (r.setTextExt p.2 v.render, [.setTextCall p.2 v])
      else
        (r.setValueExt p.2 (.num (jsNumber v)),
         [.setValueCall p.2 (.num (jsNumber v))])

/-! ## Shared sample states and trace helpers -/

/-- The call trace of a constructor run (empty when construction threw). -/
def traceOf (r : Except NSError (NSTypedRecord × List RecCall)) :
    List RecCall :=
  match r with
  | .ok p => p.2
  | .error _ => []

/-- Number of external `load` calls in a trace. -/
def countLoads (t : List RecCall) : Nat :=
  t.countP fun c => match c with | .loadCall _ _ _ _ => true | _ => false

/-- Number of external `create` calls in a trace. -/
def countCreates (t : List RecCall) : Nat :=
  t.countP fun c => match c with | .createCall _ _ _ => true | _ => false

/-- A sample record as returned by the external `create`. -/
def sampleCreated : NSRecord :=
  { recId := none, rtype := "salesorder", isDynamic := false,
    savable := true, values := [], texts := [], savedId := 7 }

/-- A sample record as returned by the external `load`. -/
def sampleLoaded : NSRecord :=
  { recId := some 42, rtype := "salesorder", isDynamic := false,
    savable := true, values := [], texts := [], savedId := 7 }

/-- A sample external environment. -/
def sampleEnv : RecEnv := { created := sampleCreated, loaded := sampleLoaded }

/-- A sample wrapper instance over `sampleLoaded`. -/
def sampleTyped : NSTypedRecord := { _nsRecord := sampleLoaded, _id := some 42 }

/-! ## C1 — constructor dispatch -/

/-- C1, counterexample: the number `0` is falsy in JS, so
`new NSTypedRecord(0)` takes the `record.create` branch — the external load
is *not* invoked exactly once keyed by that identifier, refuting the claim
for the numeric argument `0`. -/
theorem c1_counterexample :
    countLoads (traceOf (NSTypedRecord.construct sampleEnv "salesorder"
      (.numArg (.val 0)) none none)) = 0 ∧
    countCreates (traceOf (NSTypedRecord.construct sampleEnv "salesorder"
      (.numArg (.val 0)) none none)) = 1 := by
  decide

/-- C1 (amended): the constructor resolves exactly one path by the JS
truthiness and type of its argument: any falsy argument (absent, `null`,
the number `0`, `NaN`, or the empty string) issues `create` exactly once
with the subtype's record type and the supplied dynamic/default
parameters; a truthy number, or a string whose numeric coercion is truthy,
issues `load` exactly once keyed by that identifier with its original type
and with `isDynamic` defaulting to `false`, afterwards capturing the
loaded record's identifier; an external record object is adopted with no
create or load, capturing its non-null identifier; any remaining value (a
non-numeric string, or a numeric string coercing to zero such as `"0"`)
fails with the invalid-argument error naming the offending value. -/
theorem c1_construct_dispatch (env : RecEnv) (t : String) (d : Option Bool)
    (dv : Option DefaultsMap) (rec : CtorArg) :
    (rec.falsy = true →
      NSTypedRecord.construct env t rec d dv =
        .ok ({ _nsRecord := env.created, _id := none },
             [.createCall t d dv])) ∧
    (∀ n : JSNum, rec = .numArg n → n.truthy = true →
      NSTypedRecord.construct env t rec d dv =
        .ok ({ _nsRecord := env.loaded, _id := env.loaded.recId },
             [.loadCall t (.numId n) (d.getD false) dv])) ∧
    (∀ s : String, rec = .strArg s → jsPlusTruthy s = true →
      NSTypedRecord.construct env t rec d dv =
        .ok ({ _nsRecord := env.loaded, _id := env.loaded.recId },
             [.loadCall t (.strId s) (d.getD false) dv])) ∧
    (∀ r : NSRecord, rec = .recArg r →
      NSTypedRecord.construct env t rec d dv =
        .ok ({ _nsRecord := r, _id := r.recId }, [])) ∧
    (∀ s : String, rec = .strArg s → s ≠ "" → jsPlusTruthy s = false →
      NSTypedRecord.construct env t rec d dv =
        .error (.invalidArgument s)) := by
  refine ⟨?_, ?_, ?_, ?_, ?_⟩
  · intro hf
    unfold NSTypedRecord.construct
    simp [hf]
  · intro n hn ht
    subst hn
    unfold NSTypedRecord.construct
    simp [CtorArg.falsy, ht]
  · intro s hs ht
    subst hs
    have hne : s ≠ "" := by
      intro h0
      subst h0
      exact absurd ht (by decide)
    unfold NSTypedRecord.construct
    simp [CtorArg.falsy, hne, ht]
  · intro r hr
    subst hr
    unfold NSTypedRecord.construct
    simp [CtorArg.falsy]
  · intro s hs hne ht
    subst hs
    unfold NSTypedRecord.construct
    simp [CtorArg.falsy, hne, ht, CtorArg.rendered]

/-- C1 witness: a concrete numeric-string construction takes the load path
with the string identifier preserved and `isDynamic` defaulted. -/
theorem c1_construct_dispatch_witness :
    jsPlusTruthy "42" = true ∧
    NSTypedRecord.construct sampleEnv "salesorder" (.strArg "42") none none =
      .ok ({ _nsRecord := sampleEnv.loaded, _id := sampleEnv.loaded.recId },
           [.loadCall "salesorder" (.strId "42") false none]) :=
  ⟨by decide,
   (c1_construct_dispatch sampleEnv "salesorder" none none
      (.strArg "42")).2.2.1 "42" rfl (by decide)⟩

/-! ## C5 — reserved `id`/`type` pseudo-fields -/

/-- C5: for a field name equal to `id` or `type`, `getValue` and `getText`
answer from local state and issue no external call, while `setValue` and
`setText` throw the read-only-field error, issue no external call, and
leave the instance (hence the external record) unchanged. -/
theorem c5_reserved_fields (tr : NSTypedRecord) (f : String) (v : FieldVal)
    (txt : String) (h : f = "id" ∨ f = "type") :
    (NSTypedRecord.getValue tr f).2 = [] ∧
    (NSTypedRecord.getText tr f).2 = [] ∧
    NSTypedRecord.setValue tr f v = (.error (.readOnlyField f), tr, []) ∧
    NSTypedRecord.setText tr f txt = (.error (.readOnlyField f), tr, []) ∧
    (f = "id" →
      (NSTypedRecord.getValue tr f).1 =
        tr._nsRecord.recId.map (fun i => FieldVal.num (.val i))) ∧
    (f = "type" →
      (NSTypedRecord.getValue tr f).1 = some (.str tr._nsRecord.rtype)) := by
  have hid : jsToLowerCase "id" = "id" := by decide
  have hty : jsToLowerCase "type" = "type" := by decide
  rcases h with h | h <;> subst h <;>
    refine ⟨?_, ?_, ?_, ?_, ?_, ?_⟩ <;>
    simp [NSTypedRecord.getValue, NSTypedRecord.getText,
      NSTypedRecord.setValue, NSTypedRecord.setText, hid, hty]

/-- C5 witness at the concrete field name `id` on a concrete instance. -/
theorem c5_reserved_fields_witness :
    (NSTypedRecord.getValue sampleTyped "id").2 = [] ∧
    (NSTypedRecord.getText sampleTyped "id").2 = [] ∧
    NSTypedRecord.setValue sampleTyped "id" (.num (.val 1)) =
      (.error (.readOnlyField "id"), sampleTyped, []) ∧
    NSTypedRecord.setText sampleTyped "id" "x" =
      (.error (.readOnlyField "id"), sampleTyped, []) ∧
    ("id" = "id" →
      (NSTypedRecord.getValue sampleTyped "id").1 =
        sampleTyped._nsRecord.recId.map (fun i => FieldVal.num (.val i))) ∧
    ("id" = "type" →
      (NSTypedRecord.getValue sampleTyped "id").1 =
        some (.str sampleTyped._nsRecord.rtype)) :=
  c5_reserved_fields sampleTyped "id" (.num (.val 1)) "x" (Or.inl rfl)

/-! ## C8 — save -/

/-- C8: `save` on an instance whose adopted handle has no `save` method
throws the not-savable error with no external save call and the local
identifier unchanged; on a savable handle it issues the external save
exactly once, stores the returned identifier in `_id` and returns it. -/
theorem c8_save (tr : NSTypedRecord) (es im : Option Bool) :
    (tr._nsRecord.savable = false →
      NSTypedRecord.save tr es im = (.error .notSavable, tr, [])) ∧
    (tr._nsRecord.savable = true →
      NSTypedRecord.save tr es im =
        (.ok tr._nsRecord.savedId,
         { tr with _id := some tr._nsRecord.savedId },
         [.saveCall es im])) := by
  constructor <;> intro h <;> simp [NSTypedRecord.save, h]

/-- C8 witness on a concrete savable instance. -/
theorem c8_save_witness :
    NSTypedRecord.save sampleTyped none none =
      (.ok sampleTyped._nsRecord.savedId,
       { sampleTyped with _id := some sampleTyped._nsRecord.savedId },
       [.saveCall none none]) :=
  (c8_save sampleTyped none none).2 (by decide)

/-! ## C10 — undefined assignments are no-ops -/

/-- C10: assigning `undefined` through the default or numeric field binding
is a silent no-op — no external write call, record unchanged — while any
field value (in particular `null`) is forwarded as exactly one external
`setText`/`setValue` call according to the parsed `'Text'` suffix, the
numeric binding coercing non-text values with `Number(...)` first. -/
theorem c10_undefined_ignored (propertyKey : String) (r : NSRecord)
    (v : FieldVal) :
    defaultDescriptorSet propertyKey r .undef = (r, []) ∧
    numericDescriptorSet propertyKey r .undef = (r, []) ∧
    (defaultDescriptorSet propertyKey r (.val v)).2 =
      [if (RecordTs.parseProp propertyKey).1 then
         .setTextCall (RecordTs.parseProp propertyKey).2 v
       else .setValueCall (RecordTs.parseProp propertyKey).2 v] ∧
    (numericDescriptorSet propertyKey r (.val v)).2 =
      [if (RecordTs.parseProp propertyKey).1 then
         .setTextCall (RecordTs.parseProp propertyKey).2 v
       else .setValueCall (RecordTs.parseProp propertyKey).2
              (.num (jsNumber v))] := by
  refine ⟨rfl, rfl, ?_, ?_⟩
  · unfold defaultDescriptorSet
    by_cases h : (RecordTs.parseProp propertyKey).1 <;> simp [h]
  · unfold numericDescriptorSet
    by_cases h : (RecordTs.parseProp propertyKey).1 <;> simp [h]

/-! ## C7 — removeAllLines removes highest-index-first -/

@[simp]
theorem rebuildArray_subListId (rec : SubRec) (s : NSSubList) :
    (NSSubList.rebuildArray rec s)._subListId = s._subListId := rfl

@[simp]
theorem rebuildArray_useDynFlag (rec : SubRec) (s : NSSubList) :
    (NSSubList.rebuildArray rec s)._useDynamicModeAPI =
      s._useDynamicModeAPI := rfl

/-- Unrolling lemma for the removal loop's positive branch. -/
theorem removeAllLinesGo_pos (rec : SubRec) (s : NSSubList) (ig : Bool)
    (h : 0 < rec.lineCount) :
    NSSubList.removeAllLinesGo rec s ig =
      ((NSSubList.removeAllLinesGo
          (NSSubList.removeLine rec s (rec.lineCount - 1) ig).1
          (NSSubList.removeLine rec s (rec.lineCount - 1) ig).2.1 ig).1,
       (NSSubList.removeAllLinesGo
          (NSSubList.removeLine rec s (rec.lineCount - 1) ig).1
          (NSSubList.removeLine rec s (rec.lineCount - 1) ig).2.1 ig).2.1,
       (NSSubList.removeLine rec s (rec.lineCount - 1) ig).2.2 ++
       (NSSubList.removeAllLinesGo
          (NSSubList.removeLine rec s (rec.lineCount - 1) ig).1
          (NSSubList.removeLine rec s (rec.lineCount - 1) ig).2.1 ig).2.2) := by
  conv_lhs => rw [NSSubList.removeAllLinesGo]
  rw [dif_pos h]

/-- The removal loop of `removeAllLines`, unrolled: starting from `n`
committed lines it issues exactly the external removes at indices
`n-1, n-2, …, 0`, and ends with zero lines. -/
theorem removeAllLinesGo_spec (n : Nat) :
    ∀ (rec : SubRec) (s : NSSubList) (ig : Bool), rec.lineCount = n →
    (NSSubList.removeAllLinesGo rec s ig).1 = { rec with lineCount := 0 } ∧
    (NSSubList.removeAllLinesGo rec s ig).2.2 =
      (List.range n).reverse.map
        (fun i => SubCall.removeLineCall s._subListId i ig) := by
  induction n with
  | zero =>
      intro rec s ig h
      unfold NSSubList.removeAllLinesGo
      rw [dif_neg (by omega)]
      cases rec
      simp_all
  | succ m ih =>
      intro rec s ig h
      have hstep1 : (NSSubList.removeLine rec s (rec.lineCount - 1) ig).1 =
          { rec with lineCount := m } := by
        simp [NSSubList.removeLine, SubRec.extRemoveLine, h]
      have hstepId :
          (NSSubList.removeLine rec s (rec.lineCount - 1) ig).2.1._subListId =
            s._subListId := by
        simp [NSSubList.removeLine]
      have htr : (NSSubList.removeLine rec s (rec.lineCount - 1) ig).2.2 =
          [SubCall.removeLineCall s._subListId (m) ig] := by
        simp [NSSubList.removeLine, h]
      have hnext := ih (NSSubList.removeLine rec s (rec.lineCount - 1) ig).1
        (NSSubList.removeLine rec s (rec.lineCount - 1) ig).2.1 ig
        (by rw [hstep1])
      rw [removeAllLinesGo_pos rec s ig (by omega)]
      refine ⟨by rw [hnext.1, hstep1], ?_⟩
      show (NSSubList.removeLine rec s (rec.lineCount - 1) ig).2.2 ++ _ = _
      rw [htr, hnext.2, hstepId]
      simp [List.range_succ]

/-- C7: `removeAllLines` on a container over `N` committed lines issues the
external remove exactly `N` times, each targeting the then-current highest
index (`N-1`, then `N-2`, … down to `0`), and leaves the external line
count at zero. -/
theorem c7_removeAllLines (rec : SubRec) (s : NSSubList) (ig : Bool) :
    (NSSubList.removeAllLines rec s ig).1.lineCount = 0 ∧
    (NSSubList.removeAllLines rec s ig).2.2 =
      (List.range rec.lineCount).reverse.map
        (fun i => SubCall.removeLineCall s._subListId i ig) ∧
    ((NSSubList.removeAllLines rec s ig).2.2.countP
        (fun c => match c with
          | .removeLineCall _ _ _ => true
          | _ => false)) = rec.lineCount := by
  have hgo := removeAllLinesGo_spec rec.lineCount rec s ig rfl
  refine ⟨?_, ?_, ?_⟩
  · show (NSSubList.removeAllLinesGo rec s ig).1.lineCount = 0
    rw [hgo.1]
  · show (NSSubList.removeAllLinesGo rec s ig).2.2 = _
    exact hgo.2
  · show ((NSSubList.removeAllLinesGo rec s ig).2.2.countP _) = _
    rw [hgo.2, List.countP_eq_length.mpr ?_]
    · simp
    · intro c hc
      rcases List.mem_map.mp hc with ⟨i, _, rfl⟩
      rfl

/-! ## C2 — container/record sync invariant -/

/-- The container is in sync with the external record: the enumerable
index properties are exactly one line entity per committed line, bound to
its index and carrying the container's current mode flag; `entries`
mirrors them; and the phantom slot holds one extra (non-enumerable) entity
at index `length` exactly when the record is dynamic. -/
def inSync (rec : SubRec) (s : NSSubList) : Prop :=
  s.indexProps = (List.range rec.lineCount).map (fun i =>
    { _subListId := s._subListId, _line := i, ignoreFieldChange := false,
      forceSyncSourcing := false,
      useDynamicModeAPI := s._useDynamicModeAPI }) ∧
  s.entries = s.indexProps ∧
  s.phantom = (if rec.isDynamic then
      some (mkSubListLine s._subListId rec rec.lineCount) else none)

instance (rec : SubRec) (s : NSSubList) : Decidable (inSync rec s) := by
  unfold inSync
  infer_instance

/-- `rebuildArray` establishes the sync invariant from any prior state. -/
theorem inSync_rebuild (rec : SubRec) (s : NSSubList) :
    inSync rec (NSSubList.rebuildArray rec s) := by
  unfold inSync NSSubList.rebuildArray mkSubListLine
  exact ⟨rfl, rfl, rfl⟩

/-- A dynamic-mode sample record bound to two committed lines. -/
def recDyn2 : SubRec := { isDynamic := true, lineCount := 2, pendingNew := false }

/-- A standard-mode sample record with one committed line. -/
def recStd1 : SubRec := { isDynamic := false, lineCount := 1, pendingNew := false }

/-- A sample container over `recDyn2`. -/
def subDyn2 : NSSubList := NSSubList.make recDyn2 "item"

/-- C2: after initial construction and after `addLine`, `removeLine`,
`removeAllLines`, `commitLine` or an assignment to `useDynamicModeAPI`,
the index-addressable entries equal the external line count, entry `i` is
bound to line `i` and carries the container's current mode flag, and
exactly in dynamic mode one extra non-enumerable phantom entity sits at
index `length` and never appears among the enumerated `entries`. -/
theorem c2_sync_invariant (rec : SubRec) (sid : String) (s : NSSubList)
    (h : inSync rec s) (ig v : Bool) (insertAtArg : Option Nat)
    (line : Nat) :
    inSync rec (NSSubList.make rec sid) ∧
    inSync (NSSubList.addLine rec s ig insertAtArg).2.1
      (NSSubList.addLine rec s ig insertAtArg).2.2.1 ∧
    inSync (NSSubList.removeLine rec s line ig).1
      (NSSubList.removeLine rec s line ig).2.1 ∧
    inSync (NSSubList.removeAllLines rec s ig).1
      (NSSubList.removeAllLines rec s ig).2.1 ∧
    inSync (NSSubList.commitLine rec s).2.1
      (NSSubList.commitLine rec s).2.2.1 ∧
    inSync rec (NSSubList.setUseDynamicModeAPI rec s v) ∧
    s.indexProps.length = rec.lineCount ∧
    (∀ p, s.phantom = some p → p ∉ s.entries) := by
  refine ⟨inSync_rebuild rec _, ?_, ?_, ?_, ?_, inSync_rebuild rec _, ?_, ?_⟩
  · -- addLine
    unfold NSSubList.addLine
    by_cases hgt : insertAtArg.getD rec.lineCount > rec.lineCount
    · simpa [hgt] using h
    · by_cases hdy : s._useDynamicModeAPI && rec.isDynamic
      · simp only [hgt, hdy, if_false, if_true, ite_true, ite_false]
        simpa [SubRec.extSelectNewLine, inSync, mkSubListLine] using h
      · simp only [hgt, hdy, if_false, if_true, ite_true, ite_false]
        exact inSync_rebuild _ _
  · exact inSync_rebuild (rec.extRemoveLine line) s
  · exact inSync_rebuild (NSSubList.removeAllLinesGo rec s ig).1
      (NSSubList.removeAllLinesGo rec s ig).2.1
  · -- commitLine
    by_cases hdy : rec.isDynamic
    · simp only [NSSubList.commitLine, hdy, Bool.not_true, if_false,
        ite_false, ite_true]
      exact inSync_rebuild _ _
    · simp only [NSSubList.commitLine, hdy, Bool.not_false, if_true,
        ite_false, ite_true]
      exact h
  · rw [h.1]
    simp
  · intro p hp hmem
    rcases h with ⟨h1, h2, h3⟩
    rw [h3] at hp
    by_cases hdy : rec.isDynamic
    · rw [if_pos hdy] at hp
      have hpval : p = mkSubListLine s._subListId rec rec.lineCount :=
        (Option.some.injEq _ _).mp hp.symm
      rw [h2, h1] at hmem
      rcases List.mem_map.mp hmem with ⟨i, hi, hip⟩
      have hline : p._line = i := by rw [← hip]
      have : p._line = rec.lineCount := by rw [hpval]; rfl
      have hir := List.mem_range.mp hi
      omega
    · rw [if_neg hdy] at hp
      exact Option.noConfusion hp

/-- C2 witness: the invariant at a concrete dynamic two-line container and
its preservation through a concrete `removeLine`. -/
theorem c2_sync_invariant_witness :
    inSync recDyn2 subDyn2 ∧
    inSync (NSSubList.removeLine recDyn2 subDyn2 0 true).1
      (NSSubList.removeLine recDyn2 subDyn2 0 true).2.1 :=
  ⟨inSync_rebuild recDyn2 _,
   (c2_sync_invariant recDyn2 "item" subDyn2 (inSync_rebuild recDyn2 _)
      true true none 0).2.2.1⟩

/-! ## C6 — addLine bounds check and mode branches -/

/-- A rebuilt container answers index `i` below the committed count with
the freshly installed entity for line `i`. -/
theorem rebuild_getIndex (rec : SubRec) (s : NSSubList) (i : Nat)
    (hi : i < rec.lineCount) :
    (NSSubList.rebuildArray rec s).getIndex i =
      some { _subListId := s._subListId, _line := i,
             ignoreFieldChange := false, forceSyncSourcing := false,
             useDynamicModeAPI := s._useDynamicModeAPI } := by
  unfold NSSubList.getIndex NSSubList.rebuildArray
  rw [dif_pos (by simpa using hi)]
  simp [mkSubListLine, List.get_eq_getElem]

/-- C6: `addLine` with `insertAt > length` throws the index-out-of-range
error with no external call; with `insertAt ≤ length` and both mode flags
set it issues only `selectNewLine` (ignoring `insertAt`, no rebuild) and
returns the phantom entity at index `length`; otherwise it issues
`insertLine` at `insertAt`, rebuilds, and returns the entity now at
`insertAt`. -/
theorem c6_addLine_bounds (rec : SubRec) (s : NSSubList) (h : inSync rec s)
    (ig : Bool) (insertAt : Nat) :
    (insertAt > rec.lineCount →
      NSSubList.addLine rec s ig (some insertAt) =
        (.error (.indexOutOfRange insertAt rec.lineCount), rec, s, [])) ∧
    (insertAt ≤ rec.lineCount → s._useDynamicModeAPI = true →
      rec.isDynamic = true →
      NSSubList.addLine rec s ig (some insertAt) =
        (.ok (some (mkSubListLine s._subListId rec rec.lineCount)),
         rec.extSelectNewLine, s, [.selectNewLineCall s._subListId]) ∧
      s.phantom = some (mkSubListLine s._subListId rec rec.lineCount)) ∧
    (insertAt ≤ rec.lineCount →
      (s._useDynamicModeAPI && rec.isDynamic) = false →
      NSSubList.addLine rec s ig (some insertAt) =
        (.ok (some { _subListId := s._subListId, _line := insertAt,
                     ignoreFieldChange := false,
                     forceSyncSourcing := false,
                     useDynamicModeAPI := s._useDynamicModeAPI }),
         rec.extInsertLine insertAt,
         NSSubList.rebuildArray (rec.extInsertLine insertAt) s,
         [.insertLineCall s._subListId insertAt ig])) := by
  rcases h with ⟨h1, h2, h3⟩
  refine ⟨?_, ?_, ?_⟩
  · intro hgt
    unfold NSSubList.addLine
    simp [hgt]
  · intro hle hflag hdy
    have hgt : ¬ (insertAt > rec.lineCount) := by omega
    have hb : (s._useDynamicModeAPI && rec.isDynamic) = true := by
      rw [hflag, hdy]; rfl
    have hlen : s.indexProps.length = rec.lineCount := by rw [h1]; simp
    constructor
    · unfold NSSubList.addLine
      simp only [Option.getD_some, hgt, hb, if_false, if_true, ite_true,
        ite_false]
      have hidx : s.getIndex rec.extSelectNewLine.lineCount =
          some (mkSubListLine s._subListId rec rec.lineCount) := by
        unfold NSSubList.getIndex
        have hcount : rec.extSelectNewLine.lineCount = rec.lineCount := rfl
        rw [hcount, dif_neg (by omega), if_pos hlen.symm, h3, if_pos hdy]
      rw [hidx]
    · rw [h3, if_pos hdy]
  · intro hle hb
    have hgt : ¬ (insertAt > rec.lineCount) := by omega
    unfold NSSubList.addLine
    simp only [Option.getD_some, hgt, hb, if_false, if_true, ite_true,
      ite_false, Bool.false_eq_true]
    rw [rebuild_getIndex (rec.extInsertLine insertAt) s insertAt
      (by simp [SubRec.extInsertLine]; omega)]

/-- C6 witness: a concrete in-bounds dynamic-mode `addLine` returning the
phantom entity. -/
theorem c6_addLine_bounds_witness :
    1 ≤ recDyn2.lineCount ∧ subDyn2._useDynamicModeAPI = true ∧
    recDyn2.isDynamic = true ∧
    (NSSubList.addLine recDyn2 subDyn2 true (some 1) =
      (.ok (some (mkSubListLine subDyn2._subListId recDyn2
        recDyn2.lineCount)),
       recDyn2.extSelectNewLine, subDyn2,
       [.selectNewLineCall subDyn2._subListId]) ∧
     subDyn2.phantom = some (mkSubListLine subDyn2._subListId recDyn2
       recDyn2.lineCount)) :=
  ⟨by decide, by decide, by decide,
   (c6_addLine_bounds recDyn2 subDyn2 (inSync_rebuild recDyn2 _)
      true 1).2.1 (by decide) (by decide) (by decide)⟩

/-! ## C4 — effective mode resolution -/

/-- A sample line entity whose own mode flag is set while the record it
came from is in standard mode. -/
def lineDyn : NSSubListLine :=
  { _subListId := "item", _line := 0, ignoreFieldChange := false,
    forceSyncSourcing := false, useDynamicModeAPI := true }

/-- A sample container over the dynamic record with its dynamic-API usage
explicitly disabled. -/
def subNoDynAPI : NSSubList := NSSubList.setUseDynamicModeAPI recDyn2 subDyn2 false

/-- C4 counterexample: with the entity-level flag set but the record in
standard mode the conjunction is false, yet `getSubRecord` issues
dynamic-style calls (select line + current-sublist subrecord); and with
the container-level flag cleared on a dynamic record the conjunction is
false, yet `commitLine` still issues the dynamic-style external commit.
So not every operation resolves its effective mode as the conjunction. -/
theorem c4_counterexample :
    (lineDyn.useDynamicModeAPI && recStd1.isDynamic) = false ∧
    (NSSubListLine.getSubRecord lineDyn "shipaddress").any
      SubCall.isDynStyle = true ∧
    (subNoDynAPI._useDynamicModeAPI && recDyn2.isDynamic) = false ∧
    (NSSubList.commitLine recDyn2 subNoDynAPI).2.2.2.any
      SubCall.isDynStyle = true := by
  decide

/-- C4 (amended): the field get/set accessors and `addLine` resolve their
effective mode as `useDynamicModeAPI AND record.isDynamic` — dynamic-style
calls exactly when the conjunction holds, standard-mode calls exactly
otherwise; but `getSubRecord` branches on the entity-level flag alone, and
`commitLine` issues the dynamic-style external commit exactly when the
record is dynamic, regardless of the container-level flag. -/
theorem c4_mode_resolution (rec : SubRec) (line : NSSubListLine)
    (s : NSSubList) (fieldId : String) (isText ig : Bool) (v : FieldVal) :
    ((getSublistValue rec line fieldId isText).any SubCall.isDynStyle =
      (line.useDynamicModeAPI && rec.isDynamic)) ∧
    ((getSublistValue rec line fieldId isText).all SubCall.isStdStyle =
      !(line.useDynamicModeAPI && rec.isDynamic)) ∧
    ((setSublistValue rec line fieldId v isText).any SubCall.isDynStyle =
      (line.useDynamicModeAPI && rec.isDynamic)) ∧
    ((setSublistValue rec line fieldId v isText).all SubCall.isStdStyle =
      !(line.useDynamicModeAPI && rec.isDynamic)) ∧
    ((NSSubList.addLine rec s ig none).2.2.2.any SubCall.isDynStyle =
      (s._useDynamicModeAPI && rec.isDynamic)) ∧
    ((NSSubListLine.getSubRecord line fieldId).any SubCall.isDynStyle =
      line.useDynamicModeAPI) ∧
    ((NSSubList.commitLine rec s).2.2.2.any SubCall.isDynStyle =
      rec.isDynamic) := by
  refine ⟨?_, ?_, ?_, ?_, ?_, ?_, ?_⟩
  · cases hl : line.useDynamicModeAPI <;> cases hr : rec.isDynamic <;>
      cases isText <;>
      simp [getSublistValue, SubCall.isDynStyle, hl, hr]
  · cases hl : line.useDynamicModeAPI <;> cases hr : rec.isDynamic <;>
      cases isText <;>
      simp [getSublistValue, SubCall.isStdStyle, hl, hr]
  · cases hl : line.useDynamicModeAPI <;> cases hr : rec.isDynamic <;>
      cases isText <;>
      simp [setSublistValue, SubCall.isDynStyle, hl, hr]
  · cases hl : line.useDynamicModeAPI <;> cases hr : rec.isDynamic <;>
      cases isText <;>
      simp [setSublistValue, SubCall.isStdStyle, hl, hr]
  · have hgt : ¬ (rec.lineCount > rec.lineCount) := by omega
    unfold NSSubList.addLine
    cases hf : s._useDynamicModeAPI <;> cases hr : rec.isDynamic <;>
      simp [hgt, hf, hr, SubCall.isDynStyle]
  · cases hl : line.useDynamicModeAPI <;>
      simp [NSSubListLine.getSubRecord, SubCall.isDynStyle, hl]
  · cases hr : rec.isDynamic <;>
      simp [NSSubList.commitLine, SubCall.isDynStyle, hr]

/-! ## C3 — sublist-bound property caching -/

/-- A fresh owning instance (no cached container yet). -/
def inst0 : RecInstance := { cachedSubList := none }

/-- An allocator with no allocations yet. -/
def alloc0 : SubListAlloc := { nextId := 0 }

/-- C3 counterexample: two consecutive reads of a sublist-bound property
through `SubListDecorator`'s getter yield two distinct containers
(allocation ids 0 and 1), and nothing is cached on the owning instance —
the reads are not identity-equal. -/
theorem c3_counterexample :
    ((subListDecoratorGet recStd1 "fSubList" inst0 alloc0).1.1 ≠
      (subListDecoratorGet recStd1 "fSubList"
        (subListDecoratorGet recStd1 "fSubList" inst0 alloc0).2.1
        (subListDecoratorGet recStd1 "fSubList" inst0 alloc0).2.2).1.1) ∧
    (subListDecoratorGet recStd1 "fSubList" inst0 alloc0).2.1.cachedSubList
      = none := by
  decide

/-- C3 (amended): the legacy `sublistDescriptor` getter constructs the
container at most once per owning instance, caches it in the
non-enumerable backing property, and returns the identity-equal container
on every subsequent read; the `SubListDecorator` getter instead constructs
a fresh container on every read (strictly increasing allocation ids) and
caches nothing on the instance. -/
theorem c3_sublist_caching (rec : SubRec) (pk : String)
    (inst : RecInstance) (a : SubListAlloc) :
    ((sublistDescriptorGet rec pk
        (sublistDescriptorGet rec pk inst a).2.1
        (sublistDescriptorGet rec pk inst a).2.2).1 =
      (sublistDescriptorGet rec pk inst a).1 ∧
     (sublistDescriptorGet rec pk inst a).2.1.cachedSubList =
      some (sublistDescriptorGet rec pk inst a).1) ∧
    ((subListDecoratorGet rec pk
        (subListDecoratorGet rec pk inst a).2.1
        (subListDecoratorGet rec pk inst a).2.2).1.1 =
      (subListDecoratorGet rec pk inst a).1.1 + 1 ∧
     (subListDecoratorGet rec pk inst a).2.1 = inst) := by
  cases hc : inst.cachedSubList <;>
    simp [sublistDescriptorGet, subListDecoratorGet, hc]

/-! ## C9 — 'Text' suffix parsing of declared property names -/

theorem take_textChars_agree (k : Nat) (hk : k ≤ 3) :
    textChars.take k = ['T', 'e', 'x'].take k := by
  interval_cases k <;> rfl

/-- Whether a nonempty list starts with `Text` is unaffected by replacing
a trailing `Text` with `Tex`: the head-anchored window never reaches the
final character. -/
theorem startsWithText_boundary (c : Char) (a : List Char) :
    startsWithText (c :: (a ++ textChars)) =
      startsWithText (c :: (a ++ ['T', 'e', 'x'])) := by
  unfold startsWithText
  have e1 : c :: (a ++ textChars) = (c :: a) ++ textChars := rfl
  have e2 : c :: (a ++ ['T', 'e', 'x']) = (c :: a) ++ ['T', 'e', 'x'] := rfl
  rw [e1, e2, List.take_append_eq_append_take,
    List.take_append_eq_append_take]
  have hlen : 4 - (c :: a).length = 3 - a.length := by
    simp only [List.length_cons]
    omega
  rw [hlen, take_textChars_agree (3 - a.length) (by omega)]

/-- When `Text` occurs in `a ++ "Text"` only as the trailing suffix
(no occurrence fits inside `a ++ "Tex"`), removing the first occurrence
removes exactly that trailing suffix. -/
theorem replaceFirst_strips_final (a : List Char)
    (h : hasTextOcc (a ++ ['T', 'e', 'x']) = false) :
    replaceFirstTextAux (a ++ textChars) = a := by
  induction a with
  | nil => decide
  | cons c a' ih =>
      have h' : (startsWithText (c :: (a' ++ ['T', 'e', 'x']))
          || hasTextOcc (a' ++ ['T', 'e', 'x'])) = false := by
        simpa [hasTextOcc] using h
      rw [Bool.or_eq_false_iff] at h'
      have hstart : startsWithText (c :: (a' ++ textChars)) = false := by
        rw [startsWithText_boundary]
        exact h'.1
      show replaceFirstTextAux (c :: (a' ++ textChars)) = c :: a'
      rw [replaceFirstTextAux, hstart]
      simp [ih h'.2]

/-- The trailing-window test `slice(-4) === 'Text'` holds exactly when the
name decomposes as some prefix followed by the four characters `Text`. -/
theorem jsSliceLast_text_iff (k : String) :
    jsSliceLast k 4 = "Text" ↔ ∃ l, k.data = l ++ textChars := by
  have hTd : "Text".data = textChars := by decide
  constructor
  · intro h
    refine ⟨k.data.take (k.data.length - 4), ?_⟩
    have hd : k.data.drop (k.data.length - 4) = textChars := by
      have h2 := congrArg String.data h
      simpa [jsSliceLast, hTd] using h2
    conv_lhs => rw [← List.take_append_drop (k.data.length - 4) k.data]
    rw [hd]
  · rintro ⟨l, hl⟩
    unfold jsSliceLast
    rw [hl]
    have hlen : (l ++ textChars).length - 4 = l.length := by
      simp [textChars]
    rw [hlen, List.drop_left]
    decide

/-- On a name ending in the suffix, the record-level parser flags text
behavior and slices off the trailing suffix. -/
theorem suffixParser_text_strip (k : String) (a : List Char)
    (hk : k.data = a ++ textChars) :
    RecordTs.parseProp k = (true, String.mk a) := by
  have h4 : "Text".data.length = 4 := by decide
  have hflag : jsSliceLast k 4 = "Text" :=
    (jsSliceLast_text_iff k).mpr ⟨a, hk⟩
  have hstrip : jsSliceDropLast k 4 = String.mk a := by
    unfold jsSliceDropLast
    rw [hk]
    have hlen : (a ++ textChars).length - 4 = a.length := by
      simp [textChars]
    rw [hlen, List.take_left]
  unfold RecordTs.parseProp suffixParser
  simp only [h4]
  simp [hflag, hstrip]

/-- On a name not ending in the suffix, the record-level parser keeps the
name unchanged. -/
theorem suffixParser_text_keep (k : String)
    (hk : ¬ jsSliceLast k 4 = "Text") :
    RecordTs.parseProp k = (false, k) := by
  have h4 : "Text".data.length = 4 := by decide
  unfold RecordTs.parseProp suffixParser
  simp only [h4]
  simp [hk]

/-- Both parser variants agree on the text-behavior flag. -/
theorem sublistParse_flag (k : String) :
    (SublistTs.parseProp k).1 = (RecordTs.parseProp k).1 := by
  have h4 : "Text".data.length = 4 := by decide
  unfold SublistTs.parseProp RecordTs.parseProp suffixParser
  simp only [h4]

/-- C9 counterexample: `"TextFooText"` ends with the suffix, but the
sublist-line binding computes field id `"FooText"` — the *first*
occurrence of `Text` removed — not `"TextFoo"`, the declared name with
the trailing suffix removed, refuting the claim for this binding. -/
theorem c9_counterexample :
    (SublistTs.parseProp "TextFooText").1 = true ∧
    (SublistTs.parseProp "TextFooText").2 = "FooText" ∧
    jsSliceDropLast "TextFooText" 4 = "TextFoo" ∧
    (SublistTs.parseProp "TextFooText").2 ≠ "TextFoo" := by
  decide

/-- C9 (amended): for both binding variants the text behavior flag holds
iff the declared name ends with the recognized `Text` suffix; the
record-level binding (`suffixParser`-based) then uses the name with the
*trailing* suffix removed; the sublist-line binding uses the name with
the *first* occurrence of `Text` removed — which coincides with trailing
removal whenever `Text` occurs in the name only as its suffix; names
without the suffix are bound to value behavior under their unchanged
name. -/
theorem c9_suffix_binding (k : String) (a : List Char) :
    ((RecordTs.parseProp k).1 = true ↔ ∃ l, k.data = l ++ textChars) ∧
    ((SublistTs.parseProp k).1 = (RecordTs.parseProp k).1) ∧
    (k.data = a ++ textChars → (RecordTs.parseProp k).2 = String.mk a) ∧
    ((RecordTs.parseProp k).1 = false → (RecordTs.parseProp k).2 = k) ∧
    ((SublistTs.parseProp k).1 = false → (SublistTs.parseProp k).2 = k) ∧
    (k.data = a ++ textChars → hasTextOcc (a ++ ['T', 'e', 'x']) = false →
      (SublistTs.parseProp k).2 = String.mk a) := by
  have h4 : "Text".data.length = 4 := by decide
  have hflag1 : (RecordTs.parseProp k).1 = true ↔
      jsSliceLast k 4 = "Text" := by
    unfold RecordTs.parseProp suffixParser
    simp [h4]
  refine ⟨hflag1.trans (jsSliceLast_text_iff k), sublistParse_flag k,
    ?_, ?_, ?_, ?_⟩
  · intro hk
    rw [suffixParser_text_strip k a hk]
  · intro hf
    have hne : ¬ jsSliceLast k 4 = "Text" := by
      intro hp
      rw [hflag1.mpr hp] at hf
      exact Bool.noConfusion hf
    rw [suffixParser_text_keep k hne]
  · intro hf
    rw [sublistParse_flag k] at hf
    have hne : ¬ jsSliceLast k 4 = "Text" := by
      intro hp
      rw [hflag1.mpr hp] at hf
      exact Bool.noConfusion hf
    unfold SublistTs.parseProp
    simp [hne]
  · intro hk hocc
    have hp : jsSliceLast k 4 = "Text" := (jsSliceLast_text_iff k).mpr ⟨a, hk⟩
    unfold SublistTs.parseProp
    simp only [hp, if_true]
    rw [hk, replaceFirst_strips_final a hocc]

/-- C9 witness at the concrete declared name `"priceText"`. -/
theorem c9_suffix_binding_witness :
    "priceText".data = ['p', 'r', 'i', 'c', 'e'] ++ textChars ∧
    hasTextOcc (['p', 'r', 'i', 'c', 'e'] ++ ['T', 'e', 'x']) = false ∧
    (RecordTs.parseProp "priceText").2 =
      String.mk ['p', 'r', 'i', 'c', 'e'] ∧
    (SublistTs.parseProp "priceText").2 =
      String.mk ['p', 'r', 'i', 'c', 'e'] :=
  ⟨by decide, by decide,
   (c9_suffix_binding "priceText" ['p', 'r', 'i', 'c', 'e']).2.2.1
     (by decide),
   (c9_suffix_binding "priceText" ['p', 'r', 'i', 'c', 'e']).2.2.2.2.2
     (by decide) (by decide)⟩

end NSCore
